import Mathlib

/- Verification of the amr-group-4 data-extraction scripts.

   Shallow embedding of:
   - csv_merge.py          : actuator/twist/IMU merger,
   - task4/gpsdata.py      : NMEA GPS extractor and coordinate conversion,
   - task4/reconstructpath.py : lat/lon column selection of the path plotter.

   Numeric sensor values and timestamps are modelled as rationals; Python
   exceptions are modelled with Option/Except (none / .error = the Python
   call raised). -/

/-- One decoded record of the inertial channel: the six fields appended to
    imu_temp in csv_merge.py (linear acceleration x/y/z, angular velocity
    x/y/z); a full record is a pair (time, Imu6). -/
structure Imu6 where
  ax : ℚ
  ay : ℚ
  az : ℚ
  wx : ℚ
  wy : ℚ
  wz : ℚ
deriving DecidableEq, Repr, Inhabited

/-- Per-field arithmetic mean of a list of inertial records, as computed by
    pd.DataFrame(data).mean() in csv_merge.py (column sum divided by count). -/
def meanImu (l : List Imu6) : Imu6 :=
  let n : ℚ := l.length
  { ax := (l.map Imu6.ax).sum / n
    ay := (l.map Imu6.ay).sum / n
    az := (l.map Imu6.az).sum / n
    wx := (l.map Imu6.wx).sum / n
    wy := (l.map Imu6.wy).sum / n
    wz := (l.map Imu6.wz).sum / n }

/-- The IMU block-averaging loop of csv_merge.py
    (`for i in range(0, len(imu_temp), 10)`): each full block of 10
    consecutive records is replaced by one record carrying the block's first
    timestamp and the per-field mean of the block; a trailing block of fewer
    than 10 records appends nothing. -/
def blockAvg : List (ℚ × Imu6) → List (ℚ × Imu6)
  | a1 :: a2 :: a3 :: a4 :: a5 :: a6 :: a7 :: a8 :: a9 :: a10 :: rest =>
      (a1.1, meanImu [a1.2, a2.2, a3.2, a4.2, a5.2, a6.2, a7.2, a8.2, a9.2, a10.2])
        :: blockAvg rest
  | _ => []

/-- One decoded record of /otter/u_actual: time plus msg.data[1], msg.data[2]. -/
structure URec where
  time : ℚ
  u0 : ℚ
  u1 : ℚ
deriving DecidableEq, Repr, Inhabited

/-- One decoded record of /otter/twist: time plus linear.x, linear.y, angular.z. -/
structure TwistRec where
  time : ℚ
  vx : ℚ
  vy : ℚ
  wz : ℚ
deriving DecidableEq, Repr, Inhabited

/-- One row of the merged model_data.csv: columns
    time,u0,u1,vx,vy,wz,ax,ay,az,wx,wy,wz_imu. -/
structure MergedRow where
  time : ℚ
  u0 : ℚ
  u1 : ℚ
  vx : ℚ
  vy : ℚ
  wz : ℚ
  ax : ℚ
  ay : ℚ
  az : ℚ
  wx : ℚ
  wy : ℚ
  wz_imu : ℚ
deriving DecidableEq, Repr, Inhabited

/-- Time re-basing of df_u: subtract the first row's time
    (`t0 = df_u["time"].iloc[0]`).  On an empty frame iloc[0] raises
    IndexError, modelled as none. -/
def rebaseU : List URec → Option (List URec)
  | [] => none
  | x :: xs => some ((x :: xs).map (fun r => { r with time := r.time - x.time }))

/-- Time re-basing of df_twist, as rebaseU. -/
def rebaseTwist : List TwistRec → Option (List TwistRec)
  | [] => none
  | x :: xs => some ((x :: xs).map (fun r => { r with time := r.time - x.time }))

/-- Time re-basing of df_imu, as rebaseU. -/
def rebaseImu : List (ℚ × Imu6) → Option (List (ℚ × Imu6))
  | [] => none
  | x :: xs => some ((x :: xs).map (fun p => (p.1 - x.1, p.2)))

/-- The actuator channel after csv_merge.py's frame construction:
    `.iloc[5:]` discard of the first 5 rows, then time re-basing. -/
def processedU (u : List URec) : Option (List URec) :=
  rebaseU (u.drop 5)

/-- The twist channel after `.iloc[5:]` and time re-basing. -/
def processedTwist (tw : List TwistRec) : Option (List TwistRec) :=
  rebaseTwist (tw.drop 5)

/-- The inertial channel after csv_merge.py's processing: block-averaging
    first, then the `.iloc[5:]` discard of the first 5 averaged rows, then
    time re-basing. -/
def processedImu (imuRaw : List (ℚ × Imu6)) : Option (List (ℚ × Imu6)) :=
  rebaseImu ((blockAvg imuRaw).drop 5)

/-- One merged row built from the i-th row of each truncated frame, as the
    axis=1 pd.concat in csv_merge.py (u contributes time,u0,u1; twist
    contributes vx,vy,wz; imu contributes its six value columns). -/
def mkRow (a : URec) (b : TwistRec) (c : ℚ × Imu6) : MergedRow :=
  { time := a.time, u0 := a.u0, u1 := a.u1
    vx := b.vx, vy := b.vy, wz := b.wz
    ax := c.2.ax, ay := c.2.ay, az := c.2.az
    wx := c.2.wx, wy := c.2.wy, wz_imu := c.2.wz }

/-- Positional (row-index) pairing of the three equal-length truncated
    frames, as the axis=1 pd.concat. -/
def zip3Rows : List URec → List TwistRec → List (ℚ × Imu6) → List MergedRow
  | a :: as, b :: bs, c :: cs => mkRow a b c :: zip3Rows as bs cs
  | _, _, _ => []

/-- The end of csv_merge.py: the six imu value columns of a merged row. -/
def imuColsOf (r : MergedRow) : Imu6 :=
  { ax := r.ax, ay := r.ay, az := r.az, wx := r.wx, wy := r.wy, wz := r.wz_imu }

/-- The whole merger of csv_merge.py after message decoding: process each
    channel independently (block-average the inertial one, drop 5 rows,
    re-base time), truncate every frame to the minimum length, concatenate
    columns positionally.  none models the script dying with an uncaught
    IndexError at the re-basing step. -/
def mergePipeline (u : List URec) (tw : List TwistRec) (imuRaw : List (ℚ × Imu6)) :
    Option (List MergedRow) :=
  match processedU u, processedTwist tw, processedImu imuRaw with
  | some ru, some rtw, some rimu =>
    let m := min ru.length (min rtw.length rimu.length)
    some (zip3Rows (ru.take m) (rtw.take m) (rimu.take m))
  | _, _, _ => none

/-- Concrete actuator channel used on concrete runs: 6 records at times 0..5. -/
def cu6 : List URec :=
  (List.range 6).map (fun (i : Nat) => { time := (i : ℚ), u0 := 0, u1 := 0 })

/-- Concrete twist channel: 6 records at times 0..5. -/
def ctw6 : List TwistRec :=
  (List.range 6).map (fun (i : Nat) => { time := (i : ℚ), vx := 0, vy := 0, wz := 0 })

/-- Concrete inertial channel of exactly 15 records at times 0..14. -/
def cimu15 : List (ℚ × Imu6) :=
  (List.range 15).map (fun (i : Nat) => ((i : ℚ), ⟨0, 0, 0, 0, 0, 0⟩))

/-- Concrete inertial channel of exactly 60 records at times 0..59. -/
def cimu60 : List (ℚ × Imu6) :=
  (List.range 60).map (fun (i : Nat) => ((i : ℚ), ⟨0, 0, 0, 0, 0, 0⟩))

/-- Value of an all-digit character list read as a decimal numeral. -/
def natOfDigits (l : List Char) : Nat :=
  l.foldl (fun a c => a * 10 + (c.toNat - 48)) 0

/-- Python int() as used on NMEA degree fields in gpsdata.py: a non-empty
    all-digit string parses to its value, anything else raises (none). -/
def parseNatL (l : List Char) : Option Nat :=
  if l ≠ [] ∧ l.all Char.isDigit then some (natOfDigits l) else none

/-- Splitting a character list at every decimal point, as Python
    str.split would. -/
def splitOnDot : List Char → List (List Char)
  | [] => [[]]
  | c :: cs =>
    if c = '.' then [] :: splitOnDot cs
    else
      match splitOnDot cs with
      | h :: t => (c :: h) :: t
      | [] => [[c]]

/-- Python float() as used on NMEA minute fields in gpsdata.py: digit
    strings with at most one decimal point parse exactly, anything else
    raises (none). -/
def parseFloatL (l : List Char) : Option ℚ :=
  match splitOnDot l with
  | [ip] => (parseNatL ip).map (fun n => (n : ℚ))
  | [ip, fp] =>
    if ip = [] ∧ fp = [] then none
    else if ip.all Char.isDigit ∧ fp.all Char.isDigit then
      some ((natOfDigits ip : ℚ) + (natOfDigits fp : ℚ) / 10 ^ fp.length)
    else none
  | _ => none

/-- convert_latitude of gpsdata.py: an empty string returns None (.ok none);
    otherwise degrees = int(s[:2]), minutes = float(s[2:]), value =
    degrees + minutes/60, negated exactly when the direction string is "S".
    .error models int()/float() raising on an unparsable slice. -/
def convert_latitude (lat_str direction : String) : Except Unit (Option ℚ) :=
  let cs := lat_str.toList
  if cs = [] then .ok none
  else
    match parseNatL (cs.take 2), parseFloatL (cs.drop 2) with
    | some d, some m =>
      let latitude : ℚ := (d : ℚ) + m / 60
      .ok (some (if direction = "S" then -latitude else latitude))
    | _, _ => .error ()

/-- convert_longitude of gpsdata.py: as convert_latitude but with a 3-digit
    degree field and negation exactly on direction "W". -/
def convert_longitude (lon_str direction : String) : Except Unit (Option ℚ) :=
  let cs := lon_str.toList
  if cs = [] then .ok none
  else
    match parseNatL (cs.take 3), parseFloatL (cs.drop 3) with
    | some d, some m =>
      let longitude : ℚ := (d : ℚ) + m / 60
      .ok (some (if direction = "W" then -longitude else longitude))
    | _, _ => .error ()

/-- The fields of a pynmea2 GGA message that process_gps_data reads; lat
    and lon are the raw coordinate strings (empty when the fix lacks them),
    altitude may be absent. -/
structure ParsedGGA where
  lat : String
  lat_dir : String
  lon : String
  lon_dir : String
  altitude : Option ℚ
deriving DecidableEq, Repr, Inhabited

/-- One /nmea_sentence message: the raw sentence text and the outcome of
    pynmea2.parse on it (none models parse raising an exception). -/
structure NmeaMsg where
  sentence : String
  parsed : Option ParsedGGA
deriving DecidableEq, Repr, Inhabited

/-- One row appended to an antenna bucket: timestamp, converted latitude,
    converted longitude, altitude (the appended values are whatever the
    conversion returned, hence Option). -/
abbrev GpsRow := ℚ × Option ℚ × Option ℚ × Option ℚ

/-- The three antenna buckets gps1_data, gps2_data, gps3_data. -/
structure Buckets where
  gps1 : List GpsRow
  gps2 : List GpsRow
  gps3 : List GpsRow
deriving DecidableEq, Repr, Inhabited

/-- Python str.startswith. -/
def startsWithStr (s p : String) : Bool :=
  p.toList.isPrefixOf s.toList

/-- The body shared by the three antenna branches of process_gps_data:
    parse the sentence (an exception skips it), keep the fix only when both
    coordinate strings are non-empty, convert both coordinates (an exception
    in either conversion also skips the sentence), append the row. -/
def handleGGA (ts : ℚ) (parsed : Option ParsedGGA) (bucket : List GpsRow) : List GpsRow :=
  match parsed with
  | none => bucket
  | some p =>
    if p.lat ≠ "" ∧ p.lon ≠ "" then
      match convert_latitude p.lat p.lat_dir, convert_longitude p.lon p.lon_dir with
      | .ok lat, .ok lon => bucket ++ [(ts, lat, lon, p.altitude)]
      | _, _ => bucket
    else bucket

/-- Dispatch of one message on its 6-character sentence literal, as the
    if/elif chain of process_gps_data; unrecognized sentences change
    nothing. -/
def processSentence (b : Buckets) (m : ℚ × NmeaMsg) : Buckets :=
  if startsWithStr m.2.sentence "$GPGGA" then
    { b with gps1 := handleGGA m.1 m.2.parsed b.gps1 }
  else if startsWithStr m.2.sentence "$GNGGA" then
    { b with gps2 := handleGGA m.1 m.2.parsed b.gps2 }
  else if startsWithStr m.2.sentence "$GZGGA" then
    { b with gps3 := handleGGA m.1 m.2.parsed b.gps3 }
  else b

/-- process_gps_data of gpsdata.py after message decoding: fold the
    per-sentence dispatch over the message stream, starting from three
    empty buckets. -/
def process_gps_data (msgs : List (ℚ × NmeaMsg)) : Buckets :=
  msgs.foldl processSentence ⟨[], [], []⟩

/-- A DataFrame column as reconstruct_path sees it: its name and whether
    its dtype is numeric. -/
structure Col where
  name : String
  numeric : Bool
deriving DecidableEq, Repr, Inhabited

/-- Python str.lower on the column name. -/
def lowerStr (s : String) : List Char :=
  s.toList.map Char.toLower

/-- Python substring membership `needle in hay`. -/
def subInList (needle : List Char) : List Char → Bool
  | [] => needle.isEmpty
  | c :: cs => needle.isPrefixOf (c :: cs) || subInList needle cs

/-- The column-name scan of reconstruct_path: for each column in order,
    a case-insensitive match against the latitude terms sets lat_col, else
    a match against the longitude terms sets lon_col (later matches
    overwrite earlier ones). -/
def findLatLon (cols : List Col) : Option String × Option String :=
  cols.foldl
    (fun acc c =>
      let cl := lowerStr c.name
      if (["lat", "latitude"].any (fun t => subInList t.toList cl)) then (some c.name, acc.2)
      else if (["lon", "long", "longitude"].any (fun t => subInList t.toList cl)) then (acc.1, some c.name)
      else acc)
    (none, none)

/-- The column-selection block of reconstruct_path in reconstructpath.py:
    use the scanned lat/lon names when both were found; otherwise fall back
    to the first two numeric-typed columns, raising ValueError (.error) when
    fewer than two exist. -/
def selectLatLonCols (cols : List Col) : Except String (String × String) :=
  match findLatLon cols with
  | (some la, some lo) => .ok (la, lo)
  | _ =>
    match (cols.filter (fun c => c.numeric)).map (fun c => c.name) with
    | a :: b :: _ => .ok (a, b)
    | _ => .error "Could not identify latitude and longitude columns"

/-- A list matching no 10-cons pattern has fewer than 10 elements and an
    empty block average. -/
lemma blockAvg_short (l : List (ℚ × Imu6))
    (h : ∀ (a1 a2 a3 a4 a5 a6 a7 a8 a9 a10 : ℚ × Imu6) (rest : List (ℚ × Imu6)),
        l = a1 :: a2 :: a3 :: a4 :: a5 :: a6 :: a7 :: a8 :: a9 :: a10 :: rest → False) :
    l.length < 10 ∧ blockAvg l = [] := by
  rcases l with _ | ⟨a1, _ | ⟨a2, _ | ⟨a3, _ | ⟨a4, _ | ⟨a5, _ | ⟨a6, _ | ⟨a7, _ | ⟨a8, _ | ⟨a9, _ | ⟨a10, rest⟩⟩⟩⟩⟩⟩⟩⟩⟩⟩ <;>
    first
      | exact (h _ _ _ _ _ _ _ _ _ _ _ rfl).elim
      | exact ⟨by simp, rfl⟩

lemma blockAvg_length (l : List (ℚ × Imu6)) : (blockAvg l).length = l.length / 10 := by
  induction l using blockAvg.induct with
  | case1 a1 a2 a3 a4 a5 a6 a7 a8 a9 a10 rest ih =>
    simp only [blockAvg, List.length_cons, ih]
    omega
  | case2 l h =>
    obtain ⟨h1, h2⟩ := blockAvg_short l h
    simp [h2, Nat.div_eq_of_lt h1]

lemma blockAvg_getD (l : List (ℚ × Imu6)) :
    ∀ k, k < l.length / 10 →
      (blockAvg l).getD k default =
        ((((l.drop (10 * k)).take 10).headD default).1,
         meanImu (((l.drop (10 * k)).take 10).map Prod.snd)) := by
  induction l using blockAvg.induct with
  | case1 a1 a2 a3 a4 a5 a6 a7 a8 a9 a10 rest ih =>
    intro k hk
    match k with
    | 0 => simp [blockAvg, meanImu]
    | k + 1 =>
      have hlen : (a1 :: a2 :: a3 :: a4 :: a5 :: a6 :: a7 :: a8 :: a9 :: a10 :: rest).length
          = rest.length + 10 := by simp
      have hk' : k < rest.length / 10 := by
        rw [hlen] at hk
        omega
      have := ih k hk'
      simp only [blockAvg, List.getD_cons_succ, this]
      have hdrop : (a1 :: a2 :: a3 :: a4 :: a5 :: a6 :: a7 :: a8 :: a9 :: a10 :: rest).drop
          (10 * (k + 1)) = rest.drop (10 * k) := by
        have h10 : 10 * (k + 1) = 10 * k + 10 := by ring
        rw [h10]
        simp [List.drop_succ_cons]
      rw [hdrop]
  | case2 l h =>
    intro k hk
    obtain ⟨h1, _⟩ := blockAvg_short l h
    rw [Nat.div_eq_of_lt h1] at hk
    omega

lemma zip3Rows_length : ∀ (a : List URec) (b : List TwistRec) (c : List (ℚ × Imu6)),
    (zip3Rows a b c).length = min a.length (min b.length c.length)
  | [], _, _ => by simp [zip3Rows]
  | _ :: _, [], _ => by simp [zip3Rows]
  | _ :: _, _ :: _, [] => by simp [zip3Rows]
  | a :: as, b :: bs, c :: cs => by
    simp only [zip3Rows, List.length_cons, zip3Rows_length as bs cs]
    omega

lemma zip3Rows_getD : ∀ (a : List URec) (b : List TwistRec) (c : List (ℚ × Imu6))
    (i : Nat), i < (zip3Rows a b c).length →
    (zip3Rows a b c).getD i default
      = mkRow (a.getD i default) (b.getD i default) (c.getD i default)
  | _ :: _, _ :: _, _ :: _, 0, _ => by simp [zip3Rows]
  | a :: as, b :: bs, c :: cs, i + 1, h => by
    simp only [zip3Rows, List.getD_cons_succ]
    exact zip3Rows_getD as bs cs i (by simpa [zip3Rows] using h)
  | [], _, _, i, h => by simp [zip3Rows] at h
  | _ :: _, [], _, i, h => by simp [zip3Rows] at h
  | _ :: _, _ :: _, [], i, h => by simp [zip3Rows] at h

lemma getD_take {α : Type} (d : α) : ∀ (l : List α) (m i : Nat), i < m →
    (l.take m).getD i d = l.getD i d
  | [], _, _, _ => by simp
  | _ :: _, _ + 1, 0, _ => by simp
  | a :: t, m + 1, i + 1, h => by
    simp only [List.take_succ_cons, List.getD_cons_succ]
    exact getD_take d t m i (by omega)
  | _ :: _, 0, i, h => by omega

lemma getD_drop {α : Type} (d : α) : ∀ (l : List α) (n i : Nat),
    (l.drop n).getD i d = l.getD (n + i) d
  | _, 0, _ => by simp
  | [], _ + 1, _ => by simp
  | a :: t, n + 1, i => by
    show (t.drop n).getD i d = (a :: t).getD (n + 1 + i) d
    rw [getD_drop d t n i]
    have h1 : n + 1 + i = (n + i) + 1 := by omega
    rw [h1, List.getD_cons_succ]

lemma rebaseU_none_iff (l : List URec) : rebaseU l = none ↔ l = [] := by
  cases l <;> simp [rebaseU]

lemma rebaseTwist_none_iff (l : List TwistRec) : rebaseTwist l = none ↔ l = [] := by
  cases l <;> simp [rebaseTwist]

lemma rebaseImu_none_iff (l : List (ℚ × Imu6)) : rebaseImu l = none ↔ l = [] := by
  cases l <;> simp [rebaseImu]

lemma processedU_none_iff (u : List URec) : processedU u = none ↔ u.length < 6 := by
  rw [processedU, rebaseU_none_iff, List.drop_eq_nil_iff]
  omega

lemma processedTwist_none_iff (tw : List TwistRec) :
    processedTwist tw = none ↔ tw.length < 6 := by
  rw [processedTwist, rebaseTwist_none_iff, List.drop_eq_nil_iff]
  omega

lemma processedImu_none_iff (imuRaw : List (ℚ × Imu6)) :
    processedImu imuRaw = none ↔ imuRaw.length < 60 := by
  rw [processedImu, rebaseImu_none_iff, List.drop_eq_nil_iff, blockAvg_length]
  omega

lemma mergePipeline_none_iff (u : List URec) (tw : List TwistRec)
    (imuRaw : List (ℚ × Imu6)) :
    mergePipeline u tw imuRaw = none ↔
      u.length < 6 ∨ tw.length < 6 ∨ imuRaw.length < 60 := by
  have hU := processedU_none_iff u
  have hT := processedTwist_none_iff tw
  have hI := processedImu_none_iff imuRaw
  unfold mergePipeline
  rcases hu : processedU u with _ | ru <;>
    rcases ht : processedTwist tw with _ | rtw <;>
      rcases hi : processedImu imuRaw with _ | rimu <;>
        simp_all

/-- C2: for an inertial channel of length L, block-averaging by 10 combined
    with the discard of the first 5 rows leaves at most (L - 5) / 10 rows
    (lengths and subtraction over Nat). -/
theorem imu_rows_at_most_floor (l : List (ℚ × Imu6)) :
    ((blockAvg l).drop 5).length ≤ (l.length - 5) / 10 := by
  simp only [List.length_drop, blockAvg_length]
  omega

/-- C4: block-averaging partitions the inertial sequence into consecutive
    blocks of 10 in input order; there are exactly length / 10 output
    records (so a trailing partial block contributes nothing), and the k-th
    output record carries the k-th block's first timestamp and the per-field
    arithmetic mean over that block. -/
theorem block_averaging_partition (l : List (ℚ × Imu6)) :
    (blockAvg l).length = l.length / 10 ∧
    ∀ k, k < l.length / 10 →
      (blockAvg l).getD k default =
        ((((l.drop (10 * k)).take 10).headD default).1,
         meanImu (((l.drop (10 * k)).take 10).map Prod.snd)) :=
  ⟨blockAvg_length l, blockAvg_getD l⟩

/-- Witness for C4: on the concrete 15-record channel the first (and only)
    averaged record is the average of the first block. -/
theorem block_averaging_partition_witness :
    (blockAvg cimu15).getD 0 default =
      ((((cimu15.drop (10 * 0)).take 10).headD default).1,
       meanImu (((cimu15.drop (10 * 0)).take 10).map Prod.snd)) :=
  (block_averaging_partition cimu15).2 0
    (by rw [cimu15, List.length_map, List.length_range]; decide)

/-- C9: the merger completes exactly when every channel has at least 6
    post-conversion rows (for the inertial channel, at least 6 full averaged
    blocks, i.e. at least 60 raw records); otherwise the time re-basing hits
    a first-element access on an empty column and the script fails with no
    output. -/
theorem merge_fails_iff_too_few_rows (u : List URec) (tw : List TwistRec)
    (imuRaw : List (ℚ × Imu6)) :
    mergePipeline u tw imuRaw = none ↔
      u.length < 6 ∨ tw.length < 6 ∨ imuRaw.length < 60 :=
  mergePipeline_none_iff u tw imuRaw

/-- C3: when all three channels survive their independent processing, the
    merged table has exactly min-many rows across the three processed
    channels, and its i-th row is assembled from the i-th row of each
    channel — pairing is strictly by ordinal position, with no
    timestamp-based join or interpolation. -/
theorem merged_rows_min_and_positional (u : List URec) (tw : List TwistRec)
    (imuRaw : List (ℚ × Imu6)) (ru : List URec) (rtw : List TwistRec)
    (rimu : List (ℚ × Imu6))
    (h1 : processedU u = some ru) (h2 : processedTwist tw = some rtw)
    (h3 : processedImu imuRaw = some rimu) :
    ∃ m, mergePipeline u tw imuRaw = some m ∧
      m.length = min ru.length (min rtw.length rimu.length) ∧
      ∀ i, i < m.length →
        m.getD i default
          = mkRow (ru.getD i default) (rtw.getD i default) (rimu.getD i default) := by
  set n := min ru.length (min rtw.length rimu.length) with hn
  have hm : mergePipeline u tw imuRaw =
      some (zip3Rows (ru.take n) (rtw.take n) (rimu.take n)) := by
    unfold mergePipeline
    rw [h1, h2, h3]
  have hlen : (zip3Rows (ru.take n) (rtw.take n) (rimu.take n)).length = n := by
    rw [zip3Rows_length]
    simp only [List.length_take]
    omega
  refine ⟨_, hm, by rw [hlen], ?_⟩
  intro i hi
  rw [hlen] at hi
  rw [zip3Rows_getD _ _ _ i (by rw [hlen]; exact hi)]
  rw [getD_take default ru n i hi, getD_take default rtw n i hi,
    getD_take default rimu n i hi]

/-- C1 counterexample: on an inertial channel of exactly 15 records the code
    block-averages before discarding, so the channel contributes zero
    processed rows and the merger fails at time re-basing, instead of
    yielding one averaged row. -/
theorem fifteen_record_channel_yields_no_row :
    processedImu cimu15 = none ∧ mergePipeline cu6 ctw6 cimu15 = none :=
  ⟨(processedImu_none_iff cimu15).mpr
      (by rw [cimu15, List.length_map, List.length_range]; decide),
   (mergePipeline_none_iff cu6 ctw6 cimu15).mpr
      (Or.inr (Or.inr (by rw [cimu15, List.length_map, List.length_range]; decide)))⟩

lemma imuColsOf_mkRow (a : URec) (b : TwistRec) (c : ℚ × Imu6) :
    imuColsOf (mkRow a b c) = c.2 := rfl

/-- C1 (amended): an inertial channel of exactly 60 records yields exactly
    one processed inertial row — the 6th averaged block, whose re-based time
    is 0 and whose values are the per-field mean of raw records 51–60 — and,
    when the actuator and twist channels have at least 6 records, the merged
    table has exactly one row carrying those six inertial values. -/
theorem sixty_record_channel_single_row (u : List URec) (tw : List TwistRec)
    (imuRaw : List (ℚ × Imu6)) (hu : 6 ≤ u.length) (htw : 6 ≤ tw.length)
    (him : imuRaw.length = 60) :
    processedImu imuRaw = some [(0, meanImu ((imuRaw.drop 50).map Prod.snd))] ∧
    ∃ m, mergePipeline u tw imuRaw = some m ∧ m.length = 1 ∧
      m.map imuColsOf = [meanImu ((imuRaw.drop 50).map Prod.snd)] := by
  have hba : (blockAvg imuRaw).length = 6 := by
    rw [blockAvg_length, him]
  have hd5 : ((blockAvg imuRaw).drop 5).length = 1 := by
    simp [hba]
  obtain ⟨a, ha⟩ := List.length_eq_one.mp hd5
  have hsnd : a = (blockAvg imuRaw).getD 5 default := by
    calc a = ((blockAvg imuRaw).drop 5).getD 0 default := by rw [ha]; rfl
    _ = (blockAvg imuRaw).getD (5 + 0) default := getD_drop default _ 5 0
    _ = (blockAvg imuRaw).getD 5 default := by norm_num
  have hk5 : (5 : Nat) < imuRaw.length / 10 := by rw [him]; decide
  have htake : (imuRaw.drop 50).take 10 = imuRaw.drop 50 :=
    List.take_of_length_le (by simp [him])
  have hval : a = (((imuRaw.drop 50).headD default).1,
      meanImu ((imuRaw.drop 50).map Prod.snd)) := by
    rw [hsnd, blockAvg_getD imuRaw 5 hk5]
    norm_num [htake]
  have hfirst : processedImu imuRaw
      = some [(0, meanImu ((imuRaw.drop 50).map Prod.snd))] := by
    rw [processedImu, ha]
    simp only [rebaseImu, List.map_cons, List.map_nil, sub_self]
    rw [hval]
  refine ⟨hfirst, ?_⟩
  have hud : u.drop 5 ≠ [] := by
    intro hnil
    have hlen := congrArg List.length hnil
    simp at hlen
    omega
  have htd : tw.drop 5 ≠ [] := by
    intro hnil
    have hlen := congrArg List.length hnil
    simp at hlen
    omega
  obtain ⟨x, xs, hxs⟩ := List.exists_cons_of_ne_nil hud
  obtain ⟨y, ys, hys⟩ := List.exists_cons_of_ne_nil htd
  have hru : processedU u
      = some ((x :: xs).map (fun r => { r with time := r.time - x.time })) := by
    rw [processedU, hxs, rebaseU]
  have hrtw : processedTwist tw
      = some ((y :: ys).map (fun r => { r with time := r.time - y.time })) := by
    rw [processedTwist, hys, rebaseTwist]
  have hmp : mergePipeline u tw imuRaw
      = some (zip3Rows
          [{ x with time := x.time - x.time }]
          [{ y with time := y.time - y.time }]
          [(0, meanImu ((imuRaw.drop 50).map Prod.snd))]) := by
    unfold mergePipeline
    rw [hru, hrtw, hfirst]
    simp only [List.map_cons, List.length_cons, List.length_map, List.length_nil]
    have hmin : min (xs.length + 1) (min (ys.length + 1) 1) = 1 := by omega
    rw [hmin]
    simp [List.take_succ_cons]
  refine ⟨_, hmp, by simp [zip3Rows], ?_⟩
  simp only [zip3Rows, List.map_cons, List.map_nil, imuColsOf_mkRow]

/-- Witness for the amended C1, at the concrete 60-record channel. -/
theorem sixty_record_channel_single_row_witness :
    processedImu cimu60 = some [(0, meanImu ((cimu60.drop 50).map Prod.snd))] ∧
    ∃ m, mergePipeline cu6 ctw6 cimu60 = some m ∧ m.length = 1 ∧
      m.map imuColsOf = [meanImu ((cimu60.drop 50).map Prod.snd)] :=
  sixty_record_channel_single_row cu6 ctw6 cimu60 (by decide) (by decide) (by decide)

/-- Witness for C3, at concrete 6/6/60-record channels whose processed
    frames each hold exactly one row. -/
theorem merged_rows_min_and_positional_witness :
    ∃ m, mergePipeline cu6 ctw6 cimu60 = some m ∧
      m.length = min ([⟨0, 0, 0⟩] : List URec).length
        (min ([⟨0, 0, 0, 0⟩] : List TwistRec).length
          ([((0 : ℚ), (⟨0, 0, 0, 0, 0, 0⟩ : Imu6))] : List (ℚ × Imu6)).length) ∧
      ∀ i, i < m.length →
        m.getD i default
          = mkRow (([⟨0, 0, 0⟩] : List URec).getD i default)
              (([⟨0, 0, 0, 0⟩] : List TwistRec).getD i default)
              (([((0 : ℚ), (⟨0, 0, 0, 0, 0, 0⟩ : Imu6))] : List (ℚ × Imu6)).getD i default) :=
  merged_rows_min_and_positional cu6 ctw6 cimu60 _ _ _
    (by simp [processedU, cu6, rebaseU, List.range_succ])
    (by simp [processedTwist, ctw6, rebaseTwist, List.range_succ])
    (by simp [processedImu, cimu60, blockAvg, meanImu, rebaseImu, List.range_succ])

lemma convert_latitude_eq (s d : String) (deg : Nat) (mins : ℚ)
    (h0 : s.toList ≠ []) (h1 : parseNatL (s.toList.take 2) = some deg)
    (h2 : parseFloatL (s.toList.drop 2) = some mins) :
    convert_latitude s d
      = .ok (some (if d = "S" then -((deg : ℚ) + mins / 60)
          else (deg : ℚ) + mins / 60)) := by
  unfold convert_latitude
  rw [if_neg h0, h1, h2]

lemma convert_longitude_eq (s d : String) (deg : Nat) (mins : ℚ)
    (h0 : s.toList ≠ []) (h1 : parseNatL (s.toList.take 3) = some deg)
    (h2 : parseFloatL (s.toList.drop 3) = some mins) :
    convert_longitude s d
      = .ok (some (if d = "W" then -((deg : ℚ) + mins / 60)
          else (deg : ℚ) + mins / 60)) := by
  unfold convert_longitude
  rw [if_neg h0, h1, h2]

/-- C5: the degree/minute conversion maps NMEA string "3630.0" to 36.5 with
    direction N and to -36.5 with direction S, and "02945.0" to -29.75 with
    direction W. -/
theorem conversion_concrete_examples :
    convert_latitude "3630.0" "N" = .ok (some (73/2 : ℚ)) ∧
    convert_latitude "3630.0" "S" = .ok (some (-(73/2) : ℚ)) ∧
    convert_longitude "02945.0" "W" = .ok (some (-(119/4) : ℚ)) := by
  refine ⟨?_, ?_, ?_⟩
  · have h : convert_latitude "3630.0" "N"
        = .ok (some (((36 : ℕ) : ℚ) + (((30 : ℕ) : ℚ) + ((0 : ℕ) : ℚ) / 10 ^ 1) / 60)) := rfl
    rw [h]
    norm_num
  · have h : convert_latitude "3630.0" "S"
        = .ok (some (-(((36 : ℕ) : ℚ) + (((30 : ℕ) : ℚ) + ((0 : ℕ) : ℚ) / 10 ^ 1) / 60))) := rfl
    rw [h]
    norm_num
  · have h : convert_longitude "02945.0" "W"
        = .ok (some (-(((29 : ℕ) : ℚ) + (((45 : ℕ) : ℚ) + ((0 : ℕ) : ℚ) / 10 ^ 1) / 60))) := rfl
    rw [h]
    norm_num

/-- C10: for a parseable non-empty coordinate string, the conversion returns
    the unsigned value degrees + minutes/60 negated exactly when the
    direction string equals "S" (latitude) resp. "W" (longitude) — any other
    direction, lowercase included, leaves the value unsigned — and an empty
    coordinate string makes either function return None. -/
theorem hemisphere_sign_rule :
    (∀ (s d : String) (deg : Nat) (mins : ℚ),
        s.toList ≠ [] →
        parseNatL (s.toList.take 2) = some deg →
        parseFloatL (s.toList.drop 2) = some mins →
        convert_latitude s d
          = .ok (some (if d = "S" then -((deg : ℚ) + mins / 60)
              else (deg : ℚ) + mins / 60))) ∧
    (∀ (s d : String) (deg : Nat) (mins : ℚ),
        s.toList ≠ [] →
        parseNatL (s.toList.take 3) = some deg →
        parseFloatL (s.toList.drop 3) = some mins →
        convert_longitude s d
          = .ok (some (if d = "W" then -((deg : ℚ) + mins / 60)
              else (deg : ℚ) + mins / 60))) ∧
    (∀ d : String, convert_latitude "" d = .ok none ∧ convert_longitude "" d = .ok none) :=
  ⟨convert_latitude_eq, convert_longitude_eq, fun _ => ⟨rfl, rfl⟩⟩

/-- Witness for C10: the lowercase direction "s" does not trigger negation
    on the concrete coordinate string "3630.0". -/
theorem hemisphere_sign_rule_witness :
    convert_latitude "3630.0" "s"
      = .ok (some (if "s" = "S" then -(((36 : ℕ) : ℚ) + ((30 : ℕ) : ℚ) / 60)
          else ((36 : ℕ) : ℚ) + ((30 : ℕ) : ℚ) / 60)) :=
  hemisphere_sign_rule.1 "3630.0" "s" 36 30 (by decide) (by decide)
    (by rw [show parseFloatL ("3630.0".toList.drop 2)
          = some (((30 : ℕ) : ℚ) + ((0 : ℕ) : ℚ) / 10 ^ 1) from rfl]
        norm_num)

/-- C6: a sentence with a recognized prefix whose parsed latitude or
    longitude string is absent contributes no row: processing it leaves all
    three buckets exactly as they were. -/
theorem missing_coordinate_never_bucketed (b : Buckets) (ts : ℚ) (m : NmeaMsg)
    (p : ParsedGGA) (hp : m.parsed = some p)
    (_hpre : startsWithStr m.sentence "$GPGGA" = true
      ∨ startsWithStr m.sentence "$GNGGA" = true
      ∨ startsWithStr m.sentence "$GZGGA" = true)
    (hmiss : p.lat = "" ∨ p.lon = "") :
    processSentence b (ts, m) = b := by
  have hh : ∀ bucket, handleGGA ts m.parsed bucket = bucket := by
    intro bucket
    rw [hp]
    unfold handleGGA
    rcases hmiss with h | h <;> simp [h]
  unfold processSentence
  split_ifs <;> first | rw [hh] | rfl

/-- Witness for C6: a $GPGGA sentence whose parsed latitude string is empty
    leaves the empty buckets empty. -/
theorem missing_coordinate_never_bucketed_witness :
    processSentence ⟨[], [], []⟩
        (0, ⟨"$GPGGA,x", some ⟨"", "N", "02945.0", "W", none⟩⟩)
      = ⟨[], [], []⟩ :=
  missing_coordinate_never_bucketed ⟨[], [], []⟩ 0
    ⟨"$GPGGA,x", some ⟨"", "N", "02945.0", "W", none⟩⟩
    ⟨"", "N", "02945.0", "W", none⟩ rfl (Or.inl (by decide)) (Or.inl rfl)

/-- C7: a sentence whose parse raises an exception is silently skipped:
    processing it is the identity on the buckets, and removing it from the
    stream does not change the extractor's final result. -/
theorem parse_failure_skipped (msgs1 msgs2 : List (ℚ × NmeaMsg)) (ts : ℚ)
    (m : NmeaMsg) (hm : m.parsed = none) :
    (∀ b : Buckets, processSentence b (ts, m) = b) ∧
    process_gps_data (msgs1 ++ (ts, m) :: msgs2) = process_gps_data (msgs1 ++ msgs2) := by
  have hstep : ∀ b : Buckets, processSentence b (ts, m) = b := by
    intro b
    have hh : ∀ bucket, handleGGA ts m.parsed bucket = bucket := by
      intro bucket
      rw [hm]
      rfl
    unfold processSentence
    split_ifs <;> first | rw [hh] | rfl
  refine ⟨hstep, ?_⟩
  unfold process_gps_data
  rw [List.foldl_append, List.foldl_append, List.foldl_cons, hstep]

/-- Witness for C7: an unparsable $GPGGA sentence leaves a non-empty bucket
    state untouched. -/
theorem parse_failure_skipped_witness :
    processSentence ⟨[(1, some 2, some 3, none)], [], []⟩ (0, ⟨"$GPGGA,bad", none⟩)
      = ⟨[(1, some 2, some 3, none)], [], []⟩ :=
  (parse_failure_skipped [] [] 0 ⟨"$GPGGA,bad", none⟩ rfl).1
    ⟨[(1, some 2, some 3, none)], [], []⟩

lemma selectLatLonCols_fallback (cols : List Col)
    (hfall : (findLatLon cols).1 = none ∨ (findLatLon cols).2 = none) :
    selectLatLonCols cols
      = match (cols.filter (fun c => c.numeric)).map (fun c => c.name) with
        | a :: b :: _ => .ok (a, b)
        | _ => .error "Could not identify latitude and longitude columns" := by
  unfold selectLatLonCols
  rcases hfl : findLatLon cols with ⟨la, lo⟩
  rw [hfl] at hfall
  rcases la with _ | la <;> rcases lo with _ | lo <;> simp_all

/-- C8: the plotter selects coordinate columns by case-insensitive substring
    match — ["foo_lat","foo_lon","x"] yields (foo_lat, foo_lon); when either
    term is unmatched it falls back to the first two numeric columns — all
    numeric ["a","b","c"] yields (a, b) — and with fewer than two numeric
    columns it raises ValueError. -/
theorem column_heuristic_selection :
    selectLatLonCols [⟨"foo_lat", true⟩, ⟨"foo_lon", true⟩, ⟨"x", true⟩]
      = .ok ("foo_lat", "foo_lon") ∧
    selectLatLonCols [⟨"a", true⟩, ⟨"b", true⟩, ⟨"c", true⟩] = .ok ("a", "b") ∧
    (∀ cols : List Col,
      ((findLatLon cols).1 = none ∨ (findLatLon cols).2 = none) →
      ∀ a b rest,
        (cols.filter (fun c => c.numeric)).map (fun c => c.name) = a :: b :: rest →
        selectLatLonCols cols = .ok (a, b)) ∧
    (∀ cols : List Col,
      ((findLatLon cols).1 = none ∨ (findLatLon cols).2 = none) →
      ((cols.filter (fun c => c.numeric)).map (fun c => c.name)).length ≤ 1 →
      selectLatLonCols cols
        = .error "Could not identify latitude and longitude columns") := by
  refine ⟨rfl, rfl, ?_, ?_⟩
  · intro cols hfall a b rest hfilter
    rw [selectLatLonCols_fallback cols hfall, hfilter]
  · intro cols hfall hshort
    rw [selectLatLonCols_fallback cols hfall]
    rcases hmap : (cols.filter (fun c => c.numeric)).map (fun c => c.name)
      with _ | ⟨x, _ | ⟨y, l⟩⟩
    · rw [hmap]
    · rw [hmap]
    · rw [hmap] at hshort
      simp at hshort
/-- Witness for C8: columns named t and v match no coordinate term, so the
    fallback picks them as the first two numeric columns. -/
theorem column_heuristic_selection_witness :
    selectLatLonCols [⟨"t", true⟩, ⟨"v", true⟩] = .ok ("t", "v") :=
  column_heuristic_selection.2.2.1 [⟨"t", true⟩, ⟨"v", true⟩]
    (Or.inl rfl) "t" "v" [] rfl
